import Mathlib

/-!
Verification of the concurrent fetch orchestrator in
`retrieve_netuid_data.py` (repository `subnet_analyze`).

The Python source is shallowly embedded below: pure helpers become Lean
functions, the stateful rate limiter becomes an explicit state-passing
function, the retry loop of the fetch worker becomes a fuel recursion on
the remaining attempt count, and nondeterministic inputs (subprocess
outcomes, random jitter draws, clock readings) become explicit
parameters.  All definitions are executable.
-/

/-! ## A model of Python dictionaries, lists and JSON values

`json.loads` produces Python values: `None`, `bool`, `int`, `float`,
`str`, `list`, `dict`.  `Json.num` models a float; no code path in the
repository inspects a float value, only its type, so the model keeps
just the tag.  Python dicts are modelled as association lists; dicts
produced by `json.loads` have pairwise distinct keys.
-/

inductive Json where
  | null
  | bool (b : Bool)
  | int (n : ℤ)
  | num
  | str (s : String)
  | arr (xs : List Json)
  | obj (kvs : List (String × Json))

/-- The four whitespace characters skipped between JSON tokens by the
Python `json` scanner: space, tab, newline, carriage return. -/
def isJsonWs (c : Char) : Bool :=
  c == ' ' || c == '\t' || c == '\n' || c == '\r'

/-- The ASCII whitespace set of Python `str.strip()` (adds vertical tab
and form feed to the JSON set). -/
def isPySpace (c : Char) : Bool :=
  c == ' ' || c == '\t' || c == '\n' || c == '\r' || c == '\x0b' || c == '\x0c'

def skipJsonWs : List Char → List Char
  | [] => []
  | c :: cs => if isJsonWs c then skipJsonWs cs else c :: cs

/-- Open and close curly brace characters (written by code point). -/
def lbraceC : Char := Char.ofNat 123

def rbraceC : Char := Char.ofNat 125

/-- Body of a JSON string literal, after the opening quote; returns the
content and the remainder after the closing quote.  Escape sequences are
modelled as accepting the escaped character verbatim; no claim inspects
string contents, only whether the literal parses. -/
def parseStringBody : List Char → Option (String × List Char)
  | [] => none
  | '\\' :: c :: rest =>
    match parseStringBody rest with
    | some (s, r) => some (⟨c :: s.data⟩, r)
    | none => none
  | c :: rest =>
    if c == '"' then some ("", rest)
    else
      match parseStringBody rest with
      | some (s, r) => some (⟨c :: s.data⟩, r)
      | none => none

def digitsToNat (ds : List Char) : ℕ :=
  ds.foldl (fun a c => 10 * a + (c.toNat - 48)) 0

/-- Optional fraction part `.digits`; returns whether one was present. -/
def parseFrac : List Char → Option (Bool × List Char)
  | '.' :: cs =>
    let p := cs.span (·.isDigit)
    if p.1.isEmpty then none else some (true, p.2)
  | cs => some (false, cs)

/-- Optional exponent part `e[+-]digits`; returns whether one was present. -/
def parseExpPart : List Char → Option (Bool × List Char)
  | [] => some (false, [])
  | c :: cs =>
    if c == 'e' || c == 'E' then
      let cs2 : List Char :=
        match cs with
        | '+' :: r => r
        | '-' :: r => r
        | r => r
      let p := cs2.span (·.isDigit)
      if p.1.isEmpty then none else some (true, p.2)
    else some (false, c :: cs)

/-- A JSON number token.  A token with a fraction or exponent part is a
Python float (`Json.num`); otherwise a Python int. -/
def parseNumber (cs : List Char) : Option (Json × List Char) :=
  let p0 : Bool × List Char :=
    match cs with
    | '-' :: rest => (true, rest)
    | _ => (false, cs)
  let p := p0.2.span (·.isDigit)
  if p.1.isEmpty then none
  else
    match parseFrac p.2 with
    | none => none
    | some (hasFrac, cs3) =>
      match parseExpPart cs3 with
      | none => none
      | some (hasExp, cs4) =>
        if hasFrac || hasExp then some (Json.num, cs4)
        else
          let v : ℤ := Int.ofNat (digitsToNat p.1)
          some (Json.int (if p0.1 then -v else v), cs4)

/-- A frame of the parser stack: a list being filled, or an object being
filled together with the key whose value is being read. -/
inductive Frame where
  | arrF (acc : List Json)
  | objF (acc : List (String × Json)) (key : String)

/-- Iterative LL parser for the JSON value grammar accepted by Python
`json.loads`: `stack` holds the open containers, `pending = some v`
means value `v` was just completed and must be delivered to the
enclosing frame.  Fuel is structural; `input length + 2` suffices since
every recursive call except the final delivery consumes a character. -/
def parseLoop : ℕ → List Frame → Option Json → List Char → Option (Json × List Char)
  | 0, _, _, _ => none
  | fuel + 1, stack, some v, cs =>
    match stack with
    | [] => some (v, cs)
    | Frame.arrF acc :: st =>
      match skipJsonWs cs with
      | ',' :: r => parseLoop fuel (Frame.arrF (acc ++ [v]) :: st) none r
      | ']' :: r => parseLoop fuel st (some (Json.arr (acc ++ [v]))) r
      | _ => none
    | Frame.objF acc k :: st =>
      match skipJsonWs cs with
      | ',' :: r =>
        match skipJsonWs r with
        | '"' :: r2 =>
          match parseStringBody r2 with
          | some (k2, r3) =>
            match skipJsonWs r3 with
            | ':' :: r4 => parseLoop fuel (Frame.objF (acc ++ [(k, v)]) k2 :: st) none r4
            | _ => none
          | none => none
        | _ => none
      | c :: r =>
        if c == rbraceC then parseLoop fuel st (some (Json.obj (acc ++ [(k, v)]))) r
        else none
      | [] => none
  | fuel + 1, stack, none, cs0 =>
    match skipJsonWs cs0 with
    | [] => none
    | c :: cs =>
      if c == 'n' then
        match cs with
        | 'u' :: 'l' :: 'l' :: r => parseLoop fuel stack (some Json.null) r
        | _ => none
      else if c == 't' then
        match cs with
        | 'r' :: 'u' :: 'e' :: r => parseLoop fuel stack (some (Json.bool true)) r
        | _ => none
      else if c == 'f' then
        match cs with
        | 'a' :: 'l' :: 's' :: 'e' :: r => parseLoop fuel stack (some (Json.bool false)) r
        | _ => none
      else if c == '"' then
        match parseStringBody cs with
        | some (s, r) => parseLoop fuel stack (some (Json.str s)) r
        | none => none
      else if c == '[' then
        match skipJsonWs cs with
        | ']' :: r => parseLoop fuel stack (some (Json.arr [])) r
        | _ => parseLoop fuel (Frame.arrF [] :: stack) none cs
      else if c == lbraceC then
        match skipJsonWs cs with
        | [] => none
        | c2 :: r =>
          if c2 == rbraceC then parseLoop fuel stack (some (Json.obj [])) r
          else if c2 == '"' then
            match parseStringBody r with
            | some (k, r2) =>
              match skipJsonWs r2 with
              | ':' :: r3 => parseLoop fuel (Frame.objF [] k :: stack) none r3
              | _ => none
            | none => none
          else none
      else if c == '-' || c.isDigit then
        match parseNumber (c :: cs) with
        | some (v, r) => parseLoop fuel stack (some v) r
        | none => none
      else none

/-- Model of `json.loads`: parse one value, allow trailing whitespace only.
Returns `none` where Python raises `json.JSONDecodeError`. -/
def json_loads (s : String) : Option Json :=
  match parseLoop (s.length + 2) [] none s.data with
  | some (v, rest) => if (skipJsonWs rest).isEmpty then some v else none
  | none => none

/-- Model of `is_empty_payload` (retrieve_netuid_data.py lines 18-30):
blank input is empty; JSON `null`, empty list and empty dict are empty;
everything else, including non-JSON non-blank text, is non-empty. -/
def is_empty_payload (s : String) : Bool :=
  if s.data.all isPySpace then true
  else
    match json_loads s with
    | none => false
    | some Json.null => true
    | some (Json.arr xs) => xs.isEmpty
    | some (Json.obj kvs) => kvs.isEmpty
    | some _ => false

/-- The specification wording for the empty-payload classifier: a payload
is empty iff it is blank, or parses as JSON to null, an empty array, or
an empty object. -/
def is_empty_payload_spec (s : String) : Prop :=
  s.data.all isPySpace = true ∨ json_loads s = some Json.null ∨
    json_loads s = some (Json.arr []) ∨ json_loads s = some (Json.obj [])

/-! ## Discovery harvesting (maybe_discover_netuids, lines 106-144)

Python `isinstance(x, int)` is true for both `int` and `bool` (bool is a
subclass of int), and `int(True) = 1`, `int(False) = 0`.  `pyIntOf`
captures exactly that test together with the coercion.
-/

def pyIntOf : Json → Option ℤ
  | Json.int n => some n
  | Json.bool b => some (cond b 1 0)
  | _ => none

/-- Contribution of one dict entry to the explicit netuid check
`if "netuid" in obj and isinstance(obj["netuid"], int)`.  Python dicts
have unique keys, so summing the check over the entries of the
association list is the same as performing it once on the dict. -/
def netuidContrib (k : String) (v : Json) : Finset ℤ :=
  if k = "netuid" then (pyIntOf v).elim ∅ (fun n => {n}) else ∅

/-- Model of the inner `harvest` closure (lines 129-141): the set of
candidates accumulated over one recursive walk.  Dicts add the value of
an int-typed "netuid" key and recurse into all values; lists recurse
into all elements; int-typed leaves (including bools) are added. -/
def harvest : Json → Finset ℤ
  | Json.arr [] => ∅
  | Json.arr (x :: xs) => harvest x ∪ harvest (Json.arr xs)
  | Json.obj [] => ∅
  | Json.obj ((k, v) :: kvs) => (netuidContrib k v ∪ harvest v) ∪ harvest (Json.obj kvs)
  | j => (pyIntOf j).elim ∅ (fun n => {n})

/-- The specification wording for harvesting: the integer values
contained anywhere in the nested containers of the payload. -/
def intsIn : Json → Finset ℤ
  | Json.arr [] => ∅
  | Json.arr (x :: xs) => intsIn x ∪ intsIn (Json.arr xs)
  | Json.obj [] => ∅
  | Json.obj ((_, v) :: kvs) => intsIn v ∪ intsIn (Json.obj kvs)
  | j => (pyIntOf j).elim ∅ (fun n => {n})

/-- `sorted(candidates)`: the harvested set as an ascending list. -/
def sortedHarvest (j : Json) : List ℤ :=
  (harvest j).sort (· ≤ ·)

/-- `return sorted(candidates) if candidates else None` (line 142). -/
def maybe_discover_result (j : Json) : Option (List ℤ) :=
  if harvest j = ∅ then none else some (sortedHarvest j)

/-! ## RateLimiter (lines 41-57)

`acquire` is modelled as a pure transition: given the configured rate,
the current cursor `next`, the clock reading `now` taken under the lock,
and the jitter draw `j` of `random.uniform(0.0, jitter)`, it returns the
new cursor and the total sleep duration performed after releasing the
lock.  The lock makes the read-modify-write of the cursor atomic, so one
`acquire` is one transition of this function.
-/

structure AcquireResult where
  next : ℚ
  sleep : ℚ
deriving DecidableEq

def acquire (qps next now j : ℚ) : AcquireResult :=
  if qps ≤ 0 then ⟨next, 0⟩
  else
    let wait := max 0 (next - now)
    let slot := (if now < next then next else now) + 1 / qps
    ⟨slot, if 0 < wait then wait + j else 0⟩

/-! ## FetchWorker (fetch_one, lines 59-104)

One attempt invokes `btcli` once; the subprocess interaction is an
oracle `call : attempt number → CallResult`.  A completed process
carries its return code, stdout and stderr.  `writeOk i` tells whether
`outfile.write_text` succeeds at attempt `i`; `jitter i` is the draw of
`random.uniform(0.0, 0.25)` in the backoff sleep after attempt `i`.
-/

inductive CallResult where
  | timeoutExpired
  | fileNotFound
  | raisedOther
  | completed (returncode : ℤ) (stdout : String) (stderr : String)

structure FetchEnv where
  call : ℕ → CallResult
  writeOk : ℕ → Bool
  jitter : ℕ → ℚ

inductive StepOut where
  | success
  | fatal
  | retry
deriving DecidableEq

/-- Outcome of the body of one loop iteration of `fetch_one`, before the
backoff sleep: `fatal` is the `except FileNotFoundError: return False`
branch; `success` is a clean exit with non-empty payload and successful
write; everything else falls through to the retry logic. -/
def attemptStep (env : FetchEnv) (i : ℕ) : StepOut :=
  match env.call i with
  | CallResult.fileNotFound => StepOut.fatal
  | CallResult.timeoutExpired => StepOut.retry
  | CallResult.raisedOther => StepOut.retry
  | CallResult.completed rc out _ =>
    if rc = 0 ∧ is_empty_payload out = false then
      (if env.writeOk i then StepOut.success else StepOut.retry)
    else StepOut.retry

structure FetchResult where
  success : Bool
  attempts : ℕ
  sleeps : List ℚ
deriving DecidableEq

/-- The loop `for attempt in range(1, retries + 1)` of `fetch_one`:
`a` is the current attempt number, the second argument the number of
iterations left.  `sleeps` records each backoff sleep
`backoff * 2 ** (attempt - 1) + jitter` (line 101), taken only when
further attempts remain. -/
def fetchAux (env : FetchEnv) (backoff : ℚ) : ℕ → ℕ → FetchResult
  | a, 0 => ⟨false, a - 1, []⟩
  | a, fuel + 1 =>
    match attemptStep env a with
    | StepOut.success => ⟨true, a, []⟩
    | StepOut.fatal => ⟨false, a, []⟩
    | StepOut.retry =>
      if fuel = 0 then ⟨false, a, []⟩
      else
        let r := fetchAux env backoff (a + 1) fuel
        ⟨r.success, r.attempts, (backoff * 2 ^ (a - 1) + env.jitter a) :: r.sleeps⟩

/-- Model of `fetch_one`: run the attempt loop from attempt 1. -/
def fetch_one (env : FetchEnv) (retries : ℕ) (backoff : ℚ) : FetchResult :=
  fetchAux env backoff 1 retries

/-! ## BatchRunner (run_batch, lines 146-171) -/

/-- Whether the worker outcome for one identifier counts as a success:
`fut.result()` returned `True`.  A `False` result and an unhandled
exception both append the identifier to `failed_ids`. -/
def succeeded (outcome : ℤ → Except Unit Bool) (n : ℤ) : Bool :=
  match outcome n with
  | Except.ok true => true
  | _ => false

/-- One step of the result-collection loop of `run_batch`. -/
def batchStep (outcome : ℤ → Except Unit Bool) (acc : ℕ × List ℤ) (n : ℤ) : ℕ × List ℤ :=
  match outcome n with
  | Except.ok true => (acc.1 + 1, acc.2)
  | _ => (acc.1, acc.2 ++ [n])

/-- Model of `run_batch`: the aggregate (success count, failed ids) over
the submitted identifiers.  Collection order does not affect the count,
so the completion order of `as_completed` is modelled as submission
order. -/
def run_batch (netuids : List ℤ) (outcome : ℤ → Except Unit Bool) : ℕ × List ℤ :=
  netuids.foldl (batchStep outcome) (0, [])

/-- `run_batch` driving one `fetch_one` per identifier, with a per-id
environment: the integration of BatchRunner and FetchWorker.  `fetch_one`
catches its exceptions internally and returns a boolean, so the worker
future never raises. -/
def run_batch_fetch (netuids : List ℤ) (envOf : ℤ → FetchEnv) (retries : ℕ)
    (backoff : ℚ) : ℕ × List ℤ :=
  run_batch netuids (fun n => Except.ok (fetch_one (envOf n) retries backoff).success)

/-! ## TwoPassController (main, lines 202-216) -/

/-- The fetch-relevant configuration surface of `argparse` plus the
`SlowArgs` class. -/
structure Args where
  jobs : ℕ
  qps : ℚ
  timeout : ℚ
  retries : ℕ
  backoff : ℚ
deriving DecidableEq

/-- Model of the `SlowArgs` class (lines 210-212): retries is the
constant 3; backoff and timeout are floored against the pass-1 values;
jobs and qps are the constants 2 and 1.0. -/
def slowArgs (a : Args) : Args :=
  { jobs := 2, qps := 1, timeout := max a.timeout 25, retries := 3,
    backoff := max a.backoff (3 / 2) }

/-- The two-pass control flow of `main`: pass 1 over all identifiers;
if any failed, pass 2 over exactly the pass-1 failures with `slowArgs`.
Returns the pass-1 result and, when pass 2 ran, its input list, its
configuration and its result. -/
def twoPass (netuids : List ℤ) (a : Args) (out1 out2 : ℤ → Except Unit Bool) :
    (ℕ × List ℤ) × Option (List ℤ × Args × (ℕ × List ℤ)) :=
  let r1 := run_batch netuids out1
  if r1.2.isEmpty then (r1, none)
  else (r1, some (r1.2, slowArgs a, run_batch r1.2 out2))

/-! ## The persistence step (outfile.write_text, line 82)

Models CPython `Path.write_text`: the file is opened in mode "w", which
truncates it, then the payload is written.  `WriteAttempt` is the
adversarial environment of one write: whether the open call raises, and
how many characters reach the file before the write returns or raises.
The result is the final file content and whether the write succeeded.
-/

structure WriteAttempt where
  openFails : Bool
  bytesWritten : ℕ
deriving DecidableEq

def write_text (old payload : String) (a : WriteAttempt) : String × Bool :=
  if a.openFails then (old, false)
  else if payload.length ≤ a.bytesWritten then (payload, true)
  else (⟨payload.data.take a.bytesWritten⟩, false)

/-- The atomicity property claimed by the specification: every write
leaves either the full payload or the untouched previous content. -/
def write_atomic (old payload : String) (a : WriteAttempt) : Prop :=
  (write_text old payload a).1 = payload ∨ (write_text old payload a).1 = old

/-! ## Concrete environments used in witnesses and counterexamples -/

/-- Every call raises `FileNotFoundError`: btcli absent from PATH. -/
def envToolMissing : FetchEnv :=
  ⟨fun _ => CallResult.fileNotFound, fun _ => true, fun _ => 0⟩

/-- Every call times out; no backoff jitter. -/
def envAlwaysTimeout : FetchEnv :=
  ⟨fun _ => CallResult.timeoutExpired, fun _ => true, fun _ => 0⟩

/-- Every call times out; the first backoff draws the maximal jitter
0.25, the second draws 0. -/
def envJitterSwing : FetchEnv :=
  ⟨fun _ => CallResult.timeoutExpired, fun _ => true,
   fun i => if i = 1 then 1 / 4 else 0⟩

/-- A pass-1 configuration with 5 retries. -/
def argsFive : Args := ⟨6, 3, 20, 5, 1⟩

/-- A worker outcome that always reports failure. -/
def outFail : ℤ → Except Unit Bool := fun _ => Except.ok false

/-- The default pass-1 configuration of `argparse`. -/
def argsBase : Args := ⟨6, 3, 20, 3, 1⟩

/-! ## Helper lemmas -/

theorem getD_map_range (f : ℕ → ℚ) (n t : ℕ) (ht : t < n) :
    ((List.range n).map f).getD t 0 = f t := by
  rw [List.getD_eq_getElem?_getD, List.getElem?_map, List.getElem?_range ht]
  rfl

theorem run_batch_foldl (f : ℤ → Except Unit Bool) :
    ∀ (l : List ℤ) (k : ℕ) (acc : List ℤ),
      List.foldl (batchStep f) (k, acc) l =
        (k + l.countP (succeeded f), acc ++ l.filter (fun n => ! succeeded f n)) := by
  intro l
  induction l with
  | nil => intro k acc; simp
  | cons n t ih =>
    intro k acc
    rw [List.foldl_cons, List.countP_cons, List.filter_cons]
    cases hc : f n with
    | error e =>
      have hs : succeeded f n = false := by simp [succeeded, hc]
      have hb : batchStep f (k, acc) n = (k, acc ++ [n]) := by simp [batchStep, hc]
      rw [hb, ih, hs]
      simp
    | ok b =>
      cases b with
      | false =>
        have hs : succeeded f n = false := by simp [succeeded, hc]
        have hb : batchStep f (k, acc) n = (k, acc ++ [n]) := by simp [batchStep, hc]
        rw [hb, ih, hs]
        simp
      | true =>
        have hs : succeeded f n = true := by simp [succeeded, hc]
        have hb : batchStep f (k, acc) n = (k + 1, acc) := by simp [batchStep, hc]
        rw [hb, ih, hs]
        simp
        omega

/-- Claim C4 (confirmed): the payload classifier agrees with the
specification wording — a payload is empty iff it is blank, or parses as
JSON to null, an empty array or an empty object — and classifies the
given concrete inputs accordingly ("\x7b\x7d" is the two-character
string of an open and a close curly brace). -/
theorem is_empty_payload_matches_spec :
    (∀ s : String, is_empty_payload s = true ↔ is_empty_payload_spec s) ∧
    is_empty_payload "" = true ∧
    is_empty_payload "   " = true ∧
    is_empty_payload "null" = true ∧
    is_empty_payload "[]" = true ∧
    is_empty_payload "\x7b\x7d" = true ∧
    is_empty_payload "0" = false ∧
    is_empty_payload "[1]" = false ∧
    is_empty_payload "not json" = false := by
  refine ⟨fun s => ?_, by decide, by decide, by decide, by decide, by decide,
    by decide, by decide, by decide⟩
  unfold is_empty_payload is_empty_payload_spec
  cases hb : s.data.all isPySpace with
  | true => simp [hb]
  | false =>
    simp only [hb, Bool.false_eq_true, if_false, false_or]
    cases hj : json_loads s with
    | none => simp
    | some v => cases v <;> simp [List.isEmpty_iff]

/-- Claim C5 (corrected): with rate at most 0, `acquire` is a no-op; with
positive rate it advances the cursor to `max(next, now) + 1/rate` under
the lock and then sleeps `wait + jitter` outside the lock — but only
when `wait > 0`; when `wait = 0` it returns without sleeping at all, so
no jitter sleep happens in that case. -/
theorem acquire_behavior (qps next now j : ℚ) :
    (qps ≤ 0 → acquire qps next now j = ⟨next, 0⟩) ∧
    (0 < qps → (acquire qps next now j).next = max next now + 1 / qps) ∧
    (0 < qps → 0 < next - now → (acquire qps next now j).sleep = (next - now) + j) ∧
    (0 < qps → next - now ≤ 0 → (acquire qps next now j).sleep = 0) := by
  unfold acquire
  refine ⟨fun h => by rw [if_pos h], fun h => ?_, fun h hw => ?_, fun h hw => ?_⟩
  · rw [if_neg (not_le.mpr h)]
    simp only
    congr 1
    rcases lt_or_le now next with h2 | h2
    · rw [if_pos h2, max_eq_left h2.le]
    · rw [if_neg (not_lt.mpr h2), max_eq_right h2]
  · rw [if_neg (not_le.mpr h)]
    simp only
    rw [max_eq_right hw.le, if_pos hw]
  · rw [if_neg (not_le.mpr h)]
    simp only
    rw [max_eq_left hw, if_neg (lt_irrefl 0)]

/-- Witness for C5: at rate 1, cursor 5, clock 3, jitter draw 1/10, the
caller sleeps the wait 5 - 3 = 2 plus the jitter. -/
theorem acquire_behavior_witness :
    (0 : ℚ) < 1 ∧ (0 : ℚ) < 5 - 3 ∧ (acquire 1 5 3 (1 / 10)).sleep = (5 - 3) + 1 / 10 :=
  ⟨by norm_num, by norm_num,
    (acquire_behavior 1 5 3 (1 / 10)).2.2.1 (by norm_num) (by norm_num)⟩

/-- Counterexample for C5 as stated: when the caller is already past the
cursor (`wait = 0`), the code skips the sleep entirely, so it does not
sleep `wait + jitter` even though the jitter draw 1/10 lies in the
allowed range [0, 0.15]. -/
theorem acquire_zero_wait_skips_jitter_sleep :
    (acquire 1 0 5 (1 / 10)).sleep = 0 ∧
    (acquire 1 0 5 (1 / 10)).sleep ≠ max 0 ((0 : ℚ) - 5) + 1 / 10 ∧
    (0 : ℚ) ≤ 1 / 10 ∧ (1 : ℚ) / 10 ≤ 3 / 20 := by
  have h : (acquire 1 0 5 (1 / 10)).sleep = 0 := by
    simp [acquire]
    norm_num
  refine ⟨h, ?_, by norm_num, by norm_num⟩
  rw [h]
  norm_num

/-- Claim C6 (confirmed): the scheduling cursor never decreases across
an `acquire`: strictly increases when the rate is positive, and is left
unchanged when the rate is at most 0. -/
theorem acquire_cursor_monotone (qps next now j : ℚ) :
    next ≤ (acquire qps next now j).next ∧
    (0 < qps → next < (acquire qps next now j).next) ∧
    (qps ≤ 0 → (acquire qps next now j).next = next) := by
  unfold acquire
  rcases le_or_lt qps 0 with h | h
  · rw [if_pos h]
    exact ⟨le_refl _, fun h2 => absurd h (not_le.mpr h2), fun _ => rfl⟩
  · rw [if_neg (not_le.mpr h)]
    simp only
    have hb : next ≤ (if now < next then next else now) := by
      split
      · exact le_refl _
      · exact le_of_not_lt (by assumption)
    have hq : 0 < 1 / qps := by positivity
    exact ⟨by linarith, fun _ => by linarith, fun h2 => absurd h2 (not_le.mpr h)⟩

/-- Witness for C6: at rate 2 the cursor strictly advances. -/
theorem acquire_cursor_monotone_witness :
    (0 : ℚ) < 2 ∧ (0 : ℚ) < (acquire 2 0 1 0).next :=
  ⟨by norm_num, (acquire_cursor_monotone 2 0 1 0).2.1 (by norm_num)⟩

/-- Claim C8 (corrected): the persistence step is a plain truncating
write, not an atomic one.  On success the full payload lands; if the
open call fails the file is untouched; but once the truncating open has
happened, a failed write leaves exactly the flushed portion of the
payload — possibly empty, possibly a proper part of it. -/
theorem write_text_behavior (old payload : String) (a : WriteAttempt) :
    (a.openFails = true → write_text old payload a = (old, false)) ∧
    ((write_text old payload a).2 = true → (write_text old payload a).1 = payload) ∧
    (a.openFails = false →
      (write_text old payload a).1.data =
        payload.data.take (min a.bytesWritten payload.length)) := by
  cases ho : a.openFails with
  | true =>
    refine ⟨fun _ => by rw [write_text, if_pos ho], fun h2 => ?_, fun hc => by cases hc⟩
    rw [write_text, if_pos ho] at h2
    cases h2
  | false =>
    refine ⟨?_, ?_, fun _ => ?_⟩
    · intro hc
      cases hc
    · intro h2
      rw [write_text, if_neg (by rw [ho]; exact Bool.false_ne_true)] at h2 ⊢
      by_cases hl : payload.length ≤ a.bytesWritten
      · rw [if_pos hl]
      · rw [if_neg hl] at h2
        cases h2
    · rw [write_text, if_neg (by rw [ho]; exact Bool.false_ne_true)]
      by_cases hl : payload.length ≤ a.bytesWritten
      · rw [if_pos hl, min_eq_right hl]
        exact (List.take_length payload.data).symm
      · rw [if_neg hl, min_eq_left (le_of_not_le hl)]

/-- Witness for C8: open succeeds and one of three characters is
flushed, so the file holds the one-character take of the payload. -/
theorem write_text_behavior_witness :
    (⟨false, 1⟩ : WriteAttempt).openFails = false ∧
    (write_text "a" "xyz" ⟨false, 1⟩).1.data =
      "xyz".data.take (min (⟨false, 1⟩ : WriteAttempt).bytesWritten "xyz".length) :=
  ⟨rfl, (write_text_behavior "a" "xyz" ⟨false, 1⟩).2.2 rfl⟩

/-- Counterexample for C8 as stated: a write that fails after flushing
two of four characters leaves the file holding "ne" — neither the full
payload "new!" nor the untouched previous content "old". -/
theorem write_text_not_atomic :
    (write_text "old" "new!" ⟨false, 2⟩).1 = "ne" ∧
    ¬ write_atomic "old" "new!" ⟨false, 2⟩ := by
  constructor
  · decide
  · rw [write_atomic]
    decide

/-- Claim C10 (confirmed): the batch result partitions the input — the
success count is the number of identifiers whose worker reported
success, the failed list is exactly the sublist of identifiers whose
worker reported failure or raised, and count plus failed length equals
the number of submitted identifiers. -/
theorem run_batch_partitions_input (l : List ℤ) (f : ℤ → Except Unit Bool) :
    (run_batch l f).1 = l.countP (succeeded f) ∧
    (run_batch l f).2 = l.filter (fun n => ! succeeded f n) ∧
    (run_batch l f).1 + (run_batch l f).2.length = l.length ∧
    (run_batch l f).2.Sublist l := by
  have h : run_batch l f = (l.countP (succeeded f), l.filter (fun n => ! succeeded f n)) := by
    rw [run_batch, run_batch_foldl f l 0 []]
    simp
  refine ⟨by rw [h], by rw [h], ?_, ?_⟩
  · rw [h]
    simp only
    rw [← List.countP_eq_length_filter]
    have h2 := (List.length_eq_countP_add_countP (succeeded f) (l := l)).symm
    have h3 : l.countP (fun n => ! succeeded f n) =
        l.countP (fun a => decide ¬ succeeded f a = true) := by
      apply List.countP_congr
      intro a _
      cases hsa : succeeded f a <;> simp [hsa]
    rw [h3]
    exact h2
  · rw [h]
    exact List.filter_sublist l

/-- Claim C1 (corrected): when the external tool is missing, the worker
short-circuits at the first attempt — one attempt, no backoff sleeps,
immediate Failure — but the condition does not unwind past the worker:
the batch records an ordinary failure for that identifier and keeps
processing every remaining identifier. -/
theorem fetch_tool_missing_short_circuits (retries : ℕ) (backoff : ℚ)
    (ids : List ℤ) (envOf : ℤ → FetchEnv)
    (hr : 1 ≤ retries) (h : ∀ n, (envOf n).call 1 = CallResult.fileNotFound) :
    (∀ n, fetch_one (envOf n) retries backoff = ⟨false, 1, []⟩) ∧
    run_batch_fetch ids envOf retries backoff = (0, ids) := by
  have hf : ∀ n, fetch_one (envOf n) retries backoff = ⟨false, 1, []⟩ := by
    intro n
    obtain ⟨r, rfl⟩ : ∃ r, retries = r + 1 := ⟨retries - 1, by omega⟩
    rw [fetch_one]
    simp [fetchAux, attemptStep, h n]
  refine ⟨hf, ?_⟩
  rw [run_batch_fetch, run_batch,
    run_batch_foldl (fun n => Except.ok (fetch_one (envOf n) retries backoff).success) ids 0 []]
  have hs : ∀ n, succeeded (fun n => Except.ok (fetch_one (envOf n) retries backoff).success) n
      = false := by
    intro n
    rw [succeeded]
    rw [hf n]
  simp [hs]

/-- Witness for C1: three retries configured, tool missing — one attempt
per identifier, and a two-identifier batch still processes both. -/
theorem fetch_tool_missing_short_circuits_witness :
    fetch_one envToolMissing 3 1 = ⟨false, 1, []⟩ ∧
    run_batch_fetch [1, 2] (fun _ => envToolMissing) 3 1 = (0, [1, 2]) := by
  have h := fetch_tool_missing_short_circuits 3 1 [1, 2] (fun _ => envToolMissing)
    (by norm_num) (fun n => rfl)
  exact ⟨h.1 0, h.2⟩

/-- Counterexample for C1 as stated: with the tool missing for every
call, the batch over identifiers [1, 2] runs to completion — identifier
2 is still processed and reported failed — instead of the run aborting
before the remaining identifiers. -/
theorem fetch_tool_missing_does_not_abort_batch :
    run_batch_fetch [1, 2] (fun _ => envToolMissing) 3 1 = (0, [1, 2]) ∧
    (2 : ℤ) ∈ (run_batch_fetch [1, 2] (fun _ => envToolMissing) 3 1).2 := by
  decide

/-- Claim C2 (corrected): pass 2 runs over exactly the pass-1 failed
identifiers with the SlowArgs configuration: backoff and timeout are
floored to at least the pass-1 values, but retries is the constant 3
(at least as large as pass 1 only when pass 1 used at most 3), and jobs
and qps are the constants 2 and 1.0 rather than values derived from
pass 1. -/
theorem second_pass_conservative_params (netuids : List ℤ) (a : Args)
    (out1 out2 : ℤ → Except Unit Bool)
    (h : (run_batch netuids out1).2 ≠ []) :
    (twoPass netuids a out1 out2).2 =
      some ((run_batch netuids out1).2, slowArgs a,
        run_batch (run_batch netuids out1).2 out2) ∧
    a.backoff ≤ (slowArgs a).backoff ∧
    a.timeout ≤ (slowArgs a).timeout ∧
    (slowArgs a).retries = 3 ∧ (slowArgs a).jobs = 2 ∧ (slowArgs a).qps = 1 ∧
    (a.retries ≤ 3 → a.retries ≤ (slowArgs a).retries) := by
  refine ⟨?_, le_max_left _ _, le_max_left _ _, rfl, rfl, rfl, fun h2 => h2⟩
  simp only [twoPass]
  rw [if_neg (by simpa using h)]

/-- Witness for C2: a single identifier whose worker fails in pass 1. -/
theorem second_pass_conservative_params_witness :
    (run_batch [1] outFail).2 ≠ [] ∧
    (twoPass [1] argsBase outFail outFail).2 =
      some ((run_batch [1] outFail).2, slowArgs argsBase,
        run_batch (run_batch [1] outFail).2 outFail) :=
  ⟨by decide, (second_pass_conservative_params [1] argsBase outFail outFail (by decide)).1⟩

/-- Counterexample for C2 as stated: with pass-1 retries 5, pass 2 runs
with retries 3, which is not at least as large as the pass-1 value. -/
theorem slow_args_retries_not_floored :
    argsFive.retries = 5 ∧ (slowArgs argsFive).retries = 3 ∧
    ¬ argsFive.retries ≤ (slowArgs argsFive).retries := by
  refine ⟨rfl, rfl, ?_⟩
  rw [show (slowArgs argsFive).retries = 3 from rfl, show argsFive.retries = 5 from rfl]
  omega

/-- Characterization of the attempt loop when every attempt fails
retryably: all `fuel + 1` remaining attempts are performed, the worker
fails, and one backoff sleep is taken after each attempt but the last. -/
theorem fetchAux_all_retry (env : FetchEnv) (backoff : ℚ)
    (h : ∀ i, attemptStep env i = StepOut.retry) :
    ∀ (fuel a : ℕ), 1 ≤ a →
      fetchAux env backoff a (fuel + 1) =
        ⟨false, a + fuel,
         (List.range fuel).map (fun t => backoff * 2 ^ (a - 1 + t) + env.jitter (a + t))⟩ := by
  intro fuel
  induction fuel with
  | zero =>
    intro a ha
    simp [fetchAux, h a]
  | succ m ih =>
    intro a ha
    rw [show m + 1 + 1 = m + 2 from rfl]
    rw [fetchAux, h a]
    simp only
    rw [if_neg (Nat.succ_ne_zero m), ih (a + 1) (by omega)]
    simp only [FetchResult.mk.injEq]
    refine ⟨trivial, by omega, ?_⟩
    rw [List.range_succ_eq_map, List.map_cons, List.map_map]
    simp only [List.cons.injEq]
    constructor
    · simp
    · apply List.map_congr_left
      intro t _
      simp only [Function.comp_apply]
      have h1 : a - 1 + (t + 1) = a + 1 - 1 + t := by omega
      have h2 : a + (t + 1) = a + 1 + t := by omega
      rw [h1, h2]

/-- Claim C3 (corrected): with `k` retries and every call failing
retryably, the worker performs exactly `k` attempts, returns Failure,
and takes `k - 1` backoff sleeps; the sleeps are non-decreasing provided
the backoff base is at least 0.25 — the size of the jitter interval —
since then the exponential growth dominates any adverse jitter draw.
(Without that floor the jitter can make consecutive sleeps decrease;
see the counterexample.) -/
theorem always_fail_attempts_and_backoff (env : FetchEnv) (k : ℕ) (backoff : ℚ)
    (hk : 1 ≤ k)
    (h : ∀ i, attemptStep env i = StepOut.retry)
    (hj0 : ∀ i, 0 ≤ env.jitter i) (hj1 : ∀ i, env.jitter i ≤ 1 / 4)
    (hb : 1 / 4 ≤ backoff) :
    (fetch_one env k backoff).success = false ∧
    (fetch_one env k backoff).attempts = k ∧
    (fetch_one env k backoff).sleeps.length = k - 1 ∧
    ∀ t, t + 1 < (fetch_one env k backoff).sleeps.length →
      (fetch_one env k backoff).sleeps.getD t 0 ≤
        (fetch_one env k backoff).sleeps.getD (t + 1) 0 := by
  obtain ⟨m, rfl⟩ : ∃ m, k = m + 1 := ⟨k - 1, by omega⟩
  have hc : fetch_one env (m + 1) backoff =
      ⟨false, 1 + m, (List.range m).map (fun t => backoff * 2 ^ (1 - 1 + t) + env.jitter (1 + t))⟩ := by
    rw [fetch_one]
    exact fetchAux_all_retry env backoff h m 1 (le_refl 1)
  rw [hc]
  refine ⟨rfl, by show 1 + m = m + 1; omega, by simp, ?_⟩
  intro t ht
  simp only [List.length_map, List.length_range] at ht
  rw [getD_map_range _ m t (by omega), getD_map_range _ m (t + 1) (by omega)]
  simp only [Nat.zero_add, Nat.sub_self]
  have h1 : (1 : ℚ) ≤ 2 ^ t := one_le_pow₀ (by norm_num)
  have hbt : 1 / 4 ≤ backoff * 2 ^ t := by
    calc (1 : ℚ) / 4 = 1 / 4 * 1 := by ring
    _ ≤ backoff * 2 ^ t := by
        apply mul_le_mul hb h1 (by norm_num) (le_trans (by norm_num) hb)
  have h2 : backoff * 2 ^ (t + 1) = backoff * 2 ^ t + backoff * 2 ^ t := by ring
  have h3 := hj0 (1 + (t + 1))
  have h4 := hj1 (1 + t)
  rw [h2]
  linarith

/-- Witness for C3: three retries, every call times out, zero jitter,
backoff base 1: three attempts, two sleeps, non-decreasing. -/
theorem always_fail_attempts_and_backoff_witness :
    (fetch_one envAlwaysTimeout 3 1).success = false ∧
    (fetch_one envAlwaysTimeout 3 1).attempts = 3 ∧
    (fetch_one envAlwaysTimeout 3 1).sleeps.length = 2 ∧
    (fetch_one envAlwaysTimeout 3 1).sleeps.getD 0 0 ≤
      (fetch_one envAlwaysTimeout 3 1).sleeps.getD 1 0 := by
  have h := always_fail_attempts_and_backoff envAlwaysTimeout 3 1 (by norm_num)
    (fun i => rfl) (fun i => le_refl 0) (fun i => by show (0 : ℚ) ≤ 1 / 4; norm_num)
    (by norm_num)
  exact ⟨h.1, h.2.1, h.2.2.1, h.2.2.2 0 (by rw [h.2.2.1]; norm_num)⟩

/-- Counterexample for C3 as stated: with backoff base 0.1 and jitter
draws 0.25 then 0 — both inside [0, 0.25] — the sleep before attempt 2
is 0.35 while the sleep before attempt 3 is 0.2: the sleeps decrease. -/
theorem backoff_sleep_can_decrease_with_jitter :
    fetch_one envJitterSwing 3 (1 / 10) = ⟨false, 3, [7 / 20, 1 / 5]⟩ ∧
    (fetch_one envJitterSwing 3 (1 / 10)).sleeps.getD 0 0 >
      (fetch_one envJitterSwing 3 (1 / 10)).sleeps.getD 1 0 ∧
    (0 : ℚ) ≤ 1 / 4 ∧ (1 : ℚ) / 4 ≤ 1 / 4 ∧ (0 : ℚ) ≤ 0 ∧ (0 : ℚ) ≤ 1 / 4 := by
  have hc : fetch_one envJitterSwing 3 (1 / 10) = ⟨false, 3, [7 / 20, 1 / 5]⟩ := by
    simp [fetch_one, fetchAux, attemptStep, envJitterSwing]
    norm_num
  refine ⟨hc, ?_, by norm_num, by norm_num, by norm_num, by norm_num⟩
  rw [hc]
  norm_num

/-- The explicit netuid check of a dict entry only ever adds the integer
value of that entry, which the int-leaf rule of the walk collects
anyway. -/
theorem netuidContrib_subset (k : String) (v : Json) : netuidContrib k v ⊆ intsIn v := by
  rw [netuidContrib]
  split
  · cases v <;> simp [pyIntOf, intsIn]
  · exact Finset.empty_subset _

/-- The harvested candidate set is exactly the set of integer values
contained in the nested containers of the payload. -/
theorem harvest_eq_intsIn (j : Json) : harvest j = intsIn j := by
  induction j using harvest.induct with
  | case1 => simp [harvest, intsIn]
  | case2 x xs ih1 ih2 => rw [harvest, intsIn, ih1, ih2]
  | case3 => simp [harvest, intsIn]
  | case4 k v kvs ih1 ih2 =>
    rw [harvest, intsIn, ih1, ih2, Finset.union_assoc]
    exact Finset.union_eq_right.mpr
      ((netuidContrib_subset k v).trans Finset.subset_union_left)
  | case5 j h1 h2 h3 h4 => cases j <;> simp [harvest, intsIn]

/-- Claim C7 (confirmed): the harvester collects exactly the integer
values contained in arbitrarily nested containers, the discovery result
is that set as a duplicate-free ascending list, and on the three
documented payload shapes — a list of objects with the identifier field,
an object whose value is a list of such objects, and a flat integer
list — it extracts exactly the contained identifiers. -/
theorem harvest_collects_nested_ints :
    (∀ j : Json, harvest j = intsIn j) ∧
    (∀ j : Json, (sortedHarvest j).Sorted (· ≤ ·) ∧ (sortedHarvest j).Nodup ∧
      ∀ n : ℤ, n ∈ sortedHarvest j ↔ n ∈ intsIn j) ∧
    harvest (Json.arr [Json.obj [("netuid", Json.int 1)], Json.obj [("netuid", Json.int 2)]])
      = {1, 2} ∧
    harvest (Json.obj [("subnets", Json.arr [Json.obj [("netuid", Json.int 3)]])]) = {3} ∧
    harvest (Json.arr [Json.int 4, Json.int 5]) = {4, 5} := by
  refine ⟨harvest_eq_intsIn,
    fun j => ⟨Finset.sort_sorted _ _, Finset.sort_nodup _ _, fun n => ?_⟩, ?_, ?_, ?_⟩
  · rw [sortedHarvest, Finset.mem_sort, harvest_eq_intsIn]
  · ext n
    simp [harvest, netuidContrib, pyIntOf]
  · ext n
    simp [harvest, netuidContrib, pyIntOf]
  · ext n
    simp [harvest, pyIntOf]

/-- Claim C9 (confirmed): JSON booleans count as identifiers — `true`
contributes 1 and `false` contributes 0, whether as an identifier-field
value or as a leaf — so discovery can return identifiers that are not
positive, such as 0. -/
theorem harvest_accepts_bools :
    harvest (Json.bool true) = {1} ∧
    harvest (Json.bool false) = {0} ∧
    harvest (Json.obj [("netuid", Json.bool true)]) = {1} ∧
    maybe_discover_result (Json.arr [Json.bool false]) = some [0] ∧
    (0 : ℤ) ∈ harvest (Json.arr [Json.bool false]) ∧ ¬ 0 < (0 : ℤ) := by
  have hf : harvest (Json.arr [Json.bool false]) = {0} := by
    ext n
    simp [harvest, pyIntOf]
  refine ⟨by simp [harvest, pyIntOf], by simp [harvest, pyIntOf], ?_, ?_, ?_, by norm_num⟩
  · ext n
    simp [harvest, netuidContrib, pyIntOf]
  · rw [maybe_discover_result, sortedHarvest, hf]
    rw [if_neg (Finset.singleton_ne_empty 0)]
    rw [Finset.sort_singleton]
  · rw [hf]
    exact Finset.mem_singleton_self 0
